import Mathlib

/-!
Verification of the streaming aggregation engine of an ESP32 soft-AP
crowd-analytics dashboard (`softap_analytics.py`).

The embedding models:
* the two line parsers `parse_device_line` / `parse_stats_line` (regex
  searches over the raw line, rendered as explicit leftmost-match scanners
  over lists of characters);
* the `CrowdAnalytics` mutable state, with Python's object aliasing made
  explicit: device-record dictionaries live in an allocation `store` and
  `devices_by_mac` maps a MAC string to a reference (index) into that store,
  so that the shallow `dict(...)` copy taken by `get_plot_data` can be
  modelled faithfully;
* the mutators `add_device` / `add_statistics`, the snapshot operation
  `get_plot_data`, and the reporting function `generate_analytics_report`.

Timestamps are modelled as integer seconds (`datetime.now()` readings);
the `strftime` hour key becomes truncation to the hour, and floating-point
arithmetic in derived statistics is modelled over `ℚ`.
-/

namespace SoftAP

/-! ### Character classes used by the regular expressions -/

/-- Characters matched by the class `[0-9A-F:]` under `re.IGNORECASE`
(pattern `MAC:([0-9A-F:]+)`). -/
def isHexColonChar (c : Char) : Bool :=
  c.isDigit || ('A' ≤ c && c ≤ 'F') || ('a' ≤ c && c ≤ 'f') || c = ':'

/-- Characters matched by `\w` (ASCII fragment), used by `STATUS:(\w+)`. -/
def isWordChar (c : Char) : Bool :=
  c.isAlphanum || c = '_'

/-- Numeric value of a run of decimal digits, as produced by Python `int()`. -/
def digitsToNat (ds : List Char) : Nat :=
  ds.foldl (fun acc c => 10 * acc + (c.toNat - 48)) 0

/-! ### Leftmost-match scanners for the fixed regex patterns -/

/-- Case-insensitive equality of two characters (`re.IGNORECASE`). -/
def ciEq (a b : Char) : Bool := a.toUpper = b.toUpper

/-- Match a literal pattern case-insensitively at the head of the input,
returning the rest of the input on success. -/
def matchLitCI : List Char → List Char → Option (List Char)
  | [], cs => some cs
  | _ :: _, [] => none
  | p :: ps, c :: cs => if ciEq p c then matchLitCI ps cs else none

/-- Match a literal pattern (case-sensitively) at the head of the input,
returning the rest of the input on success. -/
def matchLit : List Char → List Char → Option (List Char)
  | [], cs => some cs
  | _ :: _, [] => none
  | p :: ps, c :: cs => if p = c then matchLit ps cs else none

/-- Whether the pattern occurs at the head of the input (helper for the
Python substring test `pat in line`). -/
def hasPrefixCh : List Char → List Char → Bool
  | [], _ => true
  | _ :: _, [] => false
  | p :: ps, c :: cs => p = c && hasPrefixCh ps cs

/-- Python substring containment `pat in line`. -/
def containsSub (pat : List Char) : List Char → Bool
  | [] => hasPrefixCh pat []
  | c :: t => hasPrefixCh pat (c :: t) || containsSub pat t

/-- Leftmost match of `re.search(r'MAC:([0-9A-F:]+)', line, re.IGNORECASE)`,
returning the captured group. At a position where the literal matches but
the character class captures nothing the whole pattern fails and the scan
resumes at the next position, exactly as the regex engine does. -/
def searchMac : List Char → Option (List Char)
  | [] => none
  | c :: t =>
    match matchLitCI "MAC:".toList (c :: t) with
    | some rest =>
      let cap := rest.takeWhile isHexColonChar
      if cap.isEmpty then searchMac t else some cap
    | none => searchMac t

/-- Leftmost match of `re.search(r'RSSI:(-?\d+)', line)`, returning the
captured signed integer (already converted by `int(...)`). -/
def searchRssi : List Char → Option Int
  | [] => none
  | c :: t =>
    match matchLit "RSSI:".toList (c :: t) with
    | some rest =>
      match rest with
      | '-' :: rest2 =>
        let ds := rest2.takeWhile Char.isDigit
        if ds.isEmpty then searchRssi t else some (-(digitsToNat ds : Int))
      | _ =>
        let ds := rest.takeWhile Char.isDigit
        if ds.isEmpty then searchRssi t else some (digitsToNat ds)
    | none => searchRssi t

/-- Leftmost match of `re.search(r'STATUS:(\w+)', line)`, returning the
captured word token. -/
def searchStatus : List Char → Option (List Char)
  | [] => none
  | c :: t =>
    match matchLit "STATUS:".toList (c :: t) with
    | some rest =>
      let cap := rest.takeWhile isWordChar
      if cap.isEmpty then searchStatus t else some cap
    | none => searchStatus t

/-- Leftmost match of `re.search(label ++ r'(\d+)', line)` for the four
labelled unsigned fields of a `[STATS]` line. -/
def searchNat (label : List Char) : List Char → Option Nat
  | [] => none
  | c :: t =>
    match matchLit label (c :: t) with
    | some rest =>
      let ds := rest.takeWhile Char.isDigit
      if ds.isEmpty then searchNat label t else some (digitsToNat ds)
    | none => searchNat label t

/-! ### Parsed events -/

/-- Result of a successful `parse_device_line`: the (uppercased) MAC, the
RSSI and the raw status token handed to `analytics.add_device`. -/
structure DeviceEvent where
  mac : String
  rssi : Int
  status : String
  deriving DecidableEq, Repr

/-- Result of a successful `parse_stats_line`: the four counters handed to
`analytics.add_statistics`. -/
structure StatsEvent where
  connected : Nat
  nearby : Nat
  total_probes : Nat
  total_connects : Nat
  deriving DecidableEq, Repr

/-- Parse of `[DEVICE] MAC:.. | RSSI:.. | STATUS:..` lines, mirroring
`parse_device_line`: the line must contain `[DEVICE]` and all three regex
searches must succeed; the MAC is uppercased before use. -/
def parse_device_line (line : String) : Option DeviceEvent :=
  let cs := line.toList
  if containsSub "[DEVICE]".toList cs then
    match searchMac cs, searchRssi cs, searchStatus cs with
    | some m, some r, some s =>
      some ⟨String.mk (m.map Char.toUpper), r, String.mk s⟩
    | _, _, _ => none
  else none

/-- Parse of `[STATS] CONNECTED:.. | NEARBY:.. | TOTAL_PROBES:.. |
TOTAL_CONNECTS:..` lines, mirroring `parse_stats_line`. -/
def parse_stats_line (line : String) : Option StatsEvent :=
  let cs := line.toList
  if containsSub "[STATS]".toList cs then
    match searchNat "CONNECTED:".toList cs, searchNat "NEARBY:".toList cs,
          searchNat "TOTAL_PROBES:".toList cs, searchNat "TOTAL_CONNECTS:".toList cs with
    | some c, some n, some p, some k => some ⟨c, n, p, k⟩
    | _, _, _, _ => none
  else none

example : parse_device_line "[DEVICE] MAC:AA:BB:CC:DD:EE:01 | RSSI:-40 | STATUS:NEARBY"
    = some ⟨"AA:BB:CC:DD:EE:01", -40, "NEARBY"⟩ := by decide

example : parse_device_line "[DEVICE] MAC:aa:bb:cc:dd:ee:01 | RSSI:-38 | STATUS:connected"
    = some ⟨"AA:BB:CC:DD:EE:01", -38, "connected"⟩ := by decide

example : parse_stats_line "[STATS] CONNECTED:5 | NEARBY:12 | TOTAL_PROBES:156 | TOTAL_CONNECTS:23"
    = some ⟨5, 12, 156, 23⟩ := by decide

example : parse_device_line "garbage input" = none := by decide

/-! ### The CrowdAnalytics state

Python dictionaries of per-device state are mutable objects shared by
reference.  To model this faithfully the records live in an allocation
`store : List DeviceRecord`, and `devices_by_mac` associates each MAC with
a reference (index) into that store; `dict(self.devices_by_mac)` then
copies the association list but not the records it points to. -/

/-- One entry of `devices_by_mac`, per the dictionary literal built in
`add_device`. Timestamps are integer seconds. -/
structure DeviceRecord where
  first_seen : Int
  last_seen : Int
  rssi_history : List Int
  status : String
  connect_time : Option Int
  dwell_time : Int
  deriving DecidableEq, Repr

/-- Number of samples retained by each real-time deque
(`MAX_DATA_POINTS = 120`). -/
def MAX_DATA_POINTS : Nat := 120

/-- The mutable state of the `CrowdAnalytics` class (the CSV-logging
handles and matplotlib state are presentation-layer collaborators and are
not part of the aggregation state). -/
structure CrowdAnalytics where
  timestamps : List Int
  connected_counts : List Nat
  nearby_counts : List Nat
  total_devices : List Nat
  store : List DeviceRecord
  devices_by_mac : List (String × Nat)
  hourly_stats : List (Int × Nat)
  total_probes : Nat
  total_connections : Nat
  all_timestamps : List Int
  all_device_counts : List Nat
  all_connection_attempts : List Nat
  session_start : Int
  deriving DecidableEq, Repr

/-- State built by `CrowdAnalytics.__init__` at time `t0`. -/
def initState (t0 : Int) : CrowdAnalytics :=
  ⟨[], [], [], [], [], [], [], 0, 0, [], [], [], t0⟩

/-- Truncation of a timestamp to its hour, modelling the string key
`now.strftime('%Y-%m-%d %H:00')`; two timestamps share a key iff they
fall in the same hour, and keys compare like the chronological order of
their hours (timestamps of a session are nonnegative epoch seconds, where
Euclidean division agrees with Python floor division). -/
def hourKey (t : Int) : Int := t / 3600

/-- First reference stored under a MAC key (Python dictionary lookup). -/
def lookupRef : List (String × Nat) → String → Option Nat
  | [], _ => none
  | (m, i) :: t, mac => if m = mac then some i else lookupRef t mac

/-- The device record a MAC currently denotes: its reference resolved
through the store. -/
def lookupDevice (a : CrowdAnalytics) (mac : String) : Option DeviceRecord :=
  (lookupRef a.devices_by_mac mac).bind (fun i => a.store[i]?)

/-- Dictionary update `d[k] = d.get(k, 0) + 1`: an existing key keeps its
insertion position, a new key is appended at the end. -/
def hourlyIncr : List (Int × Nat) → Int → List (Int × Nat)
  | [], k => [(k, 1)]
  | (k', v) :: t, k => if k' = k then (k', v + 1) :: t else (k', v) :: hourlyIncr t k

/-- Record created for a MAC seen for the first time (the dictionary
literal in the `if mac not in self.devices_by_mac` branch). -/
def newRecord (now : Int) (rssi : Int) (status : String) : DeviceRecord :=
  ⟨now, now, [rssi], status,
   if status = "CONNECTED" then some now else none, 0⟩

/-- In-place update of an existing record: set `last_seen`, append to
`rssi_history`, record `connect_time` on a transition into CONNECTED
(tested against the status from before the overwrite), overwrite
`status`, and recompute `dwell_time = now - first_seen`. -/
def updateRecord (r : DeviceRecord) (now : Int) (rssi : Int) (status : String) : DeviceRecord :=
  let r1 := { r with last_seen := now, rssi_history := r.rssi_history ++ [rssi] }
  let r2 := if status = "CONNECTED" ∧ r.status ≠ "CONNECTED"
            then { r1 with connect_time := some now } else r1
  { r2 with status := status, dwell_time := now - r.first_seen }

/-- The `add_device` method: track one device event at time `now`, then
increment the hourly histogram under the hour key of `now`. -/
def add_device (a : CrowdAnalytics) (now : Int) (mac : String) (rssi : Int)
    (status : String) : CrowdAnalytics :=
  let a' :=
    match lookupRef a.devices_by_mac mac with
    | none =>
      { a with store := a.store ++ [newRecord now rssi status],
               devices_by_mac := a.devices_by_mac ++ [(mac, a.store.length)] }
    | some i =>
      match a.store[i]? with
      | some r => { a with store := a.store.set i (updateRecord r now rssi status) }
      | none => a
  { a' with hourly_stats := hourlyIncr a'.hourly_stats (hourKey now) }

/-- Append on a `deque(maxlen=MAX_DATA_POINTS)`: push on the right,
discarding from the left whatever exceeds the capacity. -/
def dequeAppend {α : Type} (l : List α) (x : α) : List α :=
  let l' := l ++ [x]
  if MAX_DATA_POINTS < l'.length then l'.drop (l'.length - MAX_DATA_POINTS) else l'

/-- The `add_statistics` method: overwrite the cumulative totals with the
event's reported values, push the sample onto the four bounded deques and
onto the unbounded historical lists.  (The connection rate computed for
the CSV row is `connection_rate total_connects total_probes` below.) -/
def add_statistics (a : CrowdAnalytics) (now : Int) (connected nearby
    total_probes total_connects : Nat) : CrowdAnalytics :=
  { a with
    total_probes := total_probes,
    total_connections := total_connects,
    timestamps := dequeAppend a.timestamps now,
    connected_counts := dequeAppend a.connected_counts connected,
    nearby_counts := dequeAppend a.nearby_counts nearby,
    total_devices := dequeAppend a.total_devices (connected + nearby),
    all_timestamps := a.all_timestamps ++ [now],
    all_device_counts := a.all_device_counts ++ [connected + nearby],
    all_connection_attempts := a.all_connection_attempts ++ [total_connects] }

/-- Connection success rate `(total_connects / total_probes * 100) if
total_probes > 0 else 0`, as computed in `add_statistics` (CSV row) and in
`generate_analytics_report`. Python float arithmetic is modelled over ℚ. -/
def connection_rate (total_connects total_probes : Nat) : ℚ :=
  if 0 < total_probes then (total_connects : ℚ) / (total_probes : ℚ) * 100 else 0

/-! ### Snapshots -/

/-- The dictionary returned by `get_plot_data`.  The list-valued fields
are copies of immutable elements; `devices` is the *shallow* copy
`dict(self.devices_by_mac)` and therefore still holds references into the
shared record store. -/
structure PlotData where
  timestamps : List Int
  connected : List Nat
  nearby : List Nat
  total : List Nat
  total_probes : Nat
  total_connections : Nat
  total_unique : Nat
  hourly_stats : List (Int × Nat)
  devices : List (String × Nat)
  deriving DecidableEq, Repr

/-- The `get_plot_data` snapshot operation (taken under the lock). -/
def get_plot_data (a : CrowdAnalytics) : PlotData :=
  ⟨a.timestamps, a.connected_counts, a.nearby_counts, a.total_devices,
   a.total_probes, a.total_connections, a.devices_by_mac.length,
   a.hourly_stats, a.devices_by_mac⟩

/-- What a consumer holding the snapshot sees when it dereferences the
device dictionary: each stored reference resolved through the record
store as it is *now* (the records are shared, not copied). -/
def snapDevices (store : List DeviceRecord) (p : PlotData) :
    List (String × Option DeviceRecord) :=
  p.devices.map (fun mi => (mi.1, store[mi.2]?))

/-- Iteration over `self.devices_by_mac.values()`: the records denoted by
the map, in insertion order. -/
def deviceRecords (a : CrowdAnalytics) : List DeviceRecord :=
  a.devices_by_mac.filterMap (fun mi => a.store[mi.2]?)

/-! ### Report generation -/

/-- Python `max(items, key=lambda x: x[1])`: the first element carrying
the maximal second component (`max` replaces its candidate only on a
strictly greater key). -/
def pyMaxBySnd : List (Int × Nat) → Option (Int × Nat)
  | [] => none
  | x :: xs => some (xs.foldl (fun acc y => if acc.2 < y.2 then y else acc) x)

/-- Arithmetic mean of a list of rationals (`np.mean`), defined only when
the callers have checked the list is nonempty; on `[]` it yields 0, a case
every caller guards with `if xs else default`. -/
def listMean (xs : List ℚ) : ℚ := xs.sum / (xs.length : ℚ)

/-- The report dictionary assembled by `generate_analytics_report`.  The
`peak_hour` field keeps `None` for the `'N/A'` branch (the real hour keys
are nonempty strings, hence always truthy). -/
structure Report where
  session_duration_hours : ℚ
  total_unique_devices : Nat
  total_probes : Nat
  successful_connections : Nat
  connection_success_rate : ℚ
  peak_hour : Option Int
  peak_hour_count : Nat
  avg_devices : ℚ
  avg_dwell_time_seconds : ℚ
  max_dwell_time_seconds : ℚ
  avg_rssi : ℚ
  hourly_breakdown : List (Int × Nat)
  deriving DecidableEq, Repr

/-- The `generate_analytics_report` method, called at time `now`. -/
def generate_analytics_report (a : CrowdAnalytics) (now : Int) : Report :=
  let peak := pyMaxBySnd a.hourly_stats
  let dwell_times : List ℚ := (deviceRecords a).map (fun d => (d.dwell_time : ℚ))
  let all_rssi : List ℚ := ((deviceRecords a).map (fun d => d.rssi_history)).flatten.map
    (fun r => (r : ℚ))
  { session_duration_hours := ((now - a.session_start : Int) : ℚ) / 3600,
    total_unique_devices := a.devices_by_mac.length,
    total_probes := a.total_probes,
    successful_connections := a.total_connections,
    connection_success_rate := connection_rate a.total_connections a.total_probes,
    peak_hour := peak.map Prod.fst,
    peak_hour_count := (peak.map Prod.snd).getD 0,
    avg_devices := if a.all_device_counts ≠ []
      then listMean (a.all_device_counts.map (fun n => (n : ℚ))) else 0,
    avg_dwell_time_seconds := if dwell_times ≠ [] then listMean dwell_times else 0,
    max_dwell_time_seconds := match dwell_times with
      | [] => 0
      | x :: xs => xs.foldl max x,
    avg_rssi := if all_rssi ≠ [] then listMean all_rssi else -100,
    hourly_breakdown := a.hourly_stats }

/-! ### Feeding lines and event traces -/

/-- Handling of one parsed device line (`parse_device_line` feeding
`analytics.add_device`). -/
def processDeviceLine (a : CrowdAnalytics) (now : Int) (line : String) : CrowdAnalytics :=
  match parse_device_line line with
  | some e => add_device a now e.mac e.rssi e.status
  | none => a

/-- Handling of one parsed stats line (`parse_stats_line` feeding
`analytics.add_statistics`). -/
def processStatsLine (a : CrowdAnalytics) (now : Int) (line : String) : CrowdAnalytics :=
  match parse_stats_line line with
  | some e => add_statistics a now e.connected e.nearby e.total_probes e.total_connects
  | none => a

/-- One iteration of the serial reader loop on a nonempty line: try the
device parse, then the stats parse. -/
def processLine (a : CrowdAnalytics) (now : Int) (line : String) : CrowdAnalytics :=
  processStatsLine (processDeviceLine a now line) now line

/-- A device event as timed by its arrival. -/
structure TimedDev where
  now : Int
  mac : String
  rssi : Int
  status : String
  deriving DecidableEq, Repr

/-- A stats event as timed by its arrival. -/
structure TimedStats where
  now : Int
  ev : StatsEvent
  deriving DecidableEq, Repr

/-- Application of a sequence of device events. -/
def applyDevEvents (a : CrowdAnalytics) (evs : List TimedDev) : CrowdAnalytics :=
  evs.foldl (fun s e => add_device s e.now e.mac e.rssi e.status) a

/-- Application of a sequence of stats events. -/
def applyStatsEvents (a : CrowdAnalytics) (evs : List TimedStats) : CrowdAnalytics :=
  evs.foldl (fun s e =>
    add_statistics s e.now e.ev.connected e.ev.nearby e.ev.total_probes e.ev.total_connects) a

/-- Feeding a sequence of timestamped raw lines through the reader loop. -/
def applyLines (a : CrowdAnalytics) (ls : List (Int × String)) : CrowdAnalytics :=
  ls.foldl (fun s p => processLine s p.1 p.2) a

/-- Well-formedness of the reference structure: the references stored in
`devices_by_mac`, in insertion order, are exactly the store indices
`0, 1, …` — each MAC denotes its own live record — and no MAC key is
duplicated.  This holds of every state the program can reach. -/
def Wf (a : CrowdAnalytics) : Prop :=
  a.devices_by_mac.map Prod.snd = List.range a.store.length ∧
  (a.devices_by_mac.map Prod.fst).Nodup

/-! ### Basic facts about the reference structure -/

theorem lookupRef_append_of_ne (l : List (String × Nat)) (mac mac' : String) (n : Nat)
    (h : mac' ≠ mac) : lookupRef (l ++ [(mac, n)]) mac' = lookupRef l mac' := by
  induction l with
  | nil => simp [lookupRef, Ne.symm h]
  | cons x t ih =>
    obtain ⟨m, i⟩ := x
    by_cases hm : m = mac'
    · simp [lookupRef, hm]
    · simp [lookupRef, hm, ih]

theorem lookupRef_append_self (l : List (String × Nat)) (mac : String) (n : Nat)
    (h : lookupRef l mac = none) : lookupRef (l ++ [(mac, n)]) mac = some n := by
  induction l with
  | nil => simp [lookupRef]
  | cons x t ih =>
    obtain ⟨m, i⟩ := x
    by_cases hm : m = mac
    · simp [lookupRef, hm] at h
    · simp only [lookupRef, hm, if_false, List.cons_append] at h ⊢
      exact ih h

theorem lookupRef_mem (l : List (String × Nat)) (mac : String) (i : Nat)
    (h : lookupRef l mac = some i) : (mac, i) ∈ l := by
  induction l with
  | nil => simp [lookupRef] at h
  | cons x t ih =>
    obtain ⟨m, j⟩ := x
    simp only [lookupRef] at h
    split at h
    · next heq =>
      obtain rfl := heq
      obtain rfl : j = i := Option.some.inj h
      exact List.mem_cons_self _ _
    · exact List.mem_cons_of_mem _ (ih h)

theorem lookupRef_eq_none_iff (l : List (String × Nat)) (mac : String) :
    lookupRef l mac = none ↔ mac ∉ l.map Prod.fst := by
  induction l with
  | nil => simp [lookupRef]
  | cons x t ih =>
    obtain ⟨m, i⟩ := x
    by_cases hm : m = mac
    · simp [lookupRef, hm]
    · simp [lookupRef, hm, ih, Ne.symm hm]

theorem lookupRef_of_mem_nodup (l : List (String × Nat)) (mac : String) (i : Nat)
    (hn : (l.map Prod.fst).Nodup) (h : (mac, i) ∈ l) : lookupRef l mac = some i := by
  induction l with
  | nil => simp at h
  | cons x t ih =>
    obtain ⟨m, j⟩ := x
    rcases List.mem_cons.mp h with heq | hmem
    · have h1 : m = mac := (congrArg Prod.fst heq).symm
      have h2 : j = i := (congrArg Prod.snd heq).symm
      subst h1; subst h2
      simp [lookupRef]
    · have hm : m ≠ mac := by
        rintro rfl
        exact (List.nodup_cons.mp hn).1 (List.mem_map.mpr ⟨(m, i), hmem, rfl⟩)
      simp only [lookupRef, hm, if_false]
      exact ih (List.nodup_cons.mp hn).2 hmem

theorem lookupRef_ne_of_nodup (l : List (String × Nat)) (m m' : String) (i j : Nat)
    (hn : (l.map Prod.snd).Nodup) (h1 : lookupRef l m = some i)
    (h2 : lookupRef l m' = some j) (hne : m ≠ m') : i ≠ j := by
  intro hij
  subst hij
  have hmem1 := lookupRef_mem l m i h1
  have hmem2 := lookupRef_mem l m' i h2
  have := List.inj_on_of_nodup_map hn hmem1 hmem2 rfl
  exact hne (congrArg Prod.fst this)

/-! ### Shape of one `add_device` step -/

theorem add_device_of_new (a : CrowdAnalytics) (now : Int) (mac : String) (rssi : Int)
    (st : String) (h : lookupRef a.devices_by_mac mac = none) :
    add_device a now mac rssi st =
      { a with store := a.store ++ [newRecord now rssi st],
               devices_by_mac := a.devices_by_mac ++ [(mac, a.store.length)],
               hourly_stats := hourlyIncr a.hourly_stats (hourKey now) } := by
  simp [add_device, h]

theorem add_device_of_found (a : CrowdAnalytics) (now : Int) (mac : String) (rssi : Int)
    (st : String) (i : Nat) (r : DeviceRecord)
    (h : lookupRef a.devices_by_mac mac = some i) (hr : a.store[i]? = some r) :
    add_device a now mac rssi st =
      { a with store := a.store.set i (updateRecord r now rssi st),
               hourly_stats := hourlyIncr a.hourly_stats (hourKey now) } := by
  simp [add_device, h, hr]

theorem wf_ref_lt (a : CrowdAnalytics) (mac : String) (i : Nat) (hw : Wf a)
    (h : lookupRef a.devices_by_mac mac = some i) : i < a.store.length := by
  have : i ∈ a.devices_by_mac.map Prod.snd :=
    List.mem_map.mpr ⟨(mac, i), lookupRef_mem _ _ _ h, rfl⟩
  rw [hw.1] at this
  exact List.mem_range.mp this

theorem wf_found_record (a : CrowdAnalytics) (mac : String) (i : Nat) (hw : Wf a)
    (h : lookupRef a.devices_by_mac mac = some i) : ∃ r, a.store[i]? = some r := by
  have hlt := wf_ref_lt a mac i hw h
  exact ⟨a.store[i], List.getElem?_eq_getElem hlt⟩

theorem wf_initState (t0 : Int) : Wf (initState t0) :=
  ⟨rfl, List.nodup_nil⟩

theorem wf_add_device (a : CrowdAnalytics) (now : Int) (mac : String) (rssi : Int)
    (st : String) (hw : Wf a) : Wf (add_device a now mac rssi st) := by
  cases hfind : lookupRef a.devices_by_mac mac with
  | none =>
    rw [add_device_of_new a now mac rssi st hfind]
    constructor
    · simp only [List.map_append, List.map_cons, List.map_nil, List.length_append,
        List.length_cons, List.length_nil, hw.1]
      simp [List.range_succ]
    · simp only [List.map_append, List.map_cons, List.map_nil]
      rw [List.nodup_append]
      refine ⟨hw.2, List.nodup_singleton _, ?_⟩
      intro x hx hx'
      simp only [List.mem_singleton] at hx'
      subst hx'
      exact (lookupRef_eq_none_iff _ _).mp hfind hx
  | some i =>
    obtain ⟨r, hr⟩ := wf_found_record a mac i hw hfind
    rw [add_device_of_found a now mac rssi st i r hfind hr]
    exact ⟨by simpa [List.length_set] using hw.1, hw.2⟩

theorem wf_add_statistics (a : CrowdAnalytics) (now : Int) (c n tp tc : Nat)
    (hw : Wf a) : Wf (add_statistics a now c n tp tc) := hw

/-! ### How `lookupDevice` evolves across steps -/

theorem lookupDevice_initState (t0 : Int) (mac : String) :
    lookupDevice (initState t0) mac = none := rfl

theorem lookupDevice_add_statistics (a : CrowdAnalytics) (now : Int) (c n tp tc : Nat)
    (mac : String) :
    lookupDevice (add_statistics a now c n tp tc) mac = lookupDevice a mac := rfl

theorem lookupDevice_eq_none_iff (a : CrowdAnalytics) (mac : String) (hw : Wf a) :
    lookupDevice a mac = none ↔ lookupRef a.devices_by_mac mac = none := by
  constructor
  · intro h
    cases hfind : lookupRef a.devices_by_mac mac with
    | none => rfl
    | some i =>
      obtain ⟨r, hr⟩ := wf_found_record a mac i hw hfind
      rw [lookupDevice, hfind] at h
      simp [hr] at h
  · intro h
    rw [lookupDevice, h]
    rfl

theorem lookupDevice_add_device_new (a : CrowdAnalytics) (now : Int) (mac : String)
    (rssi : Int) (st : String) (_hw : Wf a)
    (h : lookupRef a.devices_by_mac mac = none) :
    lookupDevice (add_device a now mac rssi st) mac = some (newRecord now rssi st) := by
  rw [add_device_of_new a now mac rssi st h]
  simp [lookupDevice, lookupRef_append_self _ _ _ h, List.getElem?_concat_length]

theorem lookupDevice_add_device_upd (a : CrowdAnalytics) (now : Int) (mac : String)
    (rssi : Int) (st : String) (r : DeviceRecord) (hw : Wf a)
    (h : lookupDevice a mac = some r) :
    lookupDevice (add_device a now mac rssi st) mac =
      some (updateRecord r now rssi st) := by
  rw [lookupDevice] at h
  cases hfind : lookupRef a.devices_by_mac mac with
  | none => rw [hfind] at h; simp at h
  | some i =>
    rw [hfind] at h
    simp only [Option.some_bind] at h
    rw [add_device_of_found a now mac rssi st i r hfind h]
    have hlt := wf_ref_lt a mac i hw hfind
    simp [lookupDevice, hfind, List.getElem?_set, hlt]

theorem lookupDevice_add_device_other (a : CrowdAnalytics) (now : Int) (mac mac' : String)
    (rssi : Int) (st : String) (hw : Wf a) (hne : mac' ≠ mac) :
    lookupDevice (add_device a now mac rssi st) mac' = lookupDevice a mac' := by
  cases hfind : lookupRef a.devices_by_mac mac with
  | none =>
    rw [add_device_of_new a now mac rssi st hfind]
    simp only [lookupDevice]
    rw [lookupRef_append_of_ne _ _ _ _ hne]
    cases hfind' : lookupRef a.devices_by_mac mac' with
    | none => rfl
    | some j =>
      have hlt := wf_ref_lt a mac' j hw hfind'
      simp [List.getElem?_append, hlt]
  | some i =>
    obtain ⟨r, hr⟩ := wf_found_record a mac i hw hfind
    rw [add_device_of_found a now mac rssi st i r hfind hr]
    simp only [lookupDevice]
    cases hfind' : lookupRef a.devices_by_mac mac' with
    | none => rfl
    | some j =>
      have hij : i ≠ j :=
        lookupRef_ne_of_nodup _ mac mac' i j (hw.1 ▸ List.nodup_range _) hfind hfind'
          (Ne.symm hne)
      simp [hfind', List.getElem?_set_ne hij]

/-! ### Field values of one record update -/

theorem updateRecord_first_seen (r : DeviceRecord) (now rssi : Int) (st : String) :
    (updateRecord r now rssi st).first_seen = r.first_seen := by
  simp only [updateRecord]
  try split <;> rfl

theorem updateRecord_last_seen (r : DeviceRecord) (now rssi : Int) (st : String) :
    (updateRecord r now rssi st).last_seen = now := by
  simp only [updateRecord]
  try split <;> rfl

theorem updateRecord_rssi_history (r : DeviceRecord) (now rssi : Int) (st : String) :
    (updateRecord r now rssi st).rssi_history = r.rssi_history ++ [rssi] := by
  simp only [updateRecord]
  try split <;> rfl

theorem updateRecord_status (r : DeviceRecord) (now rssi : Int) (st : String) :
    (updateRecord r now rssi st).status = st := by
  simp only [updateRecord]

theorem updateRecord_dwell_time (r : DeviceRecord) (now rssi : Int) (st : String) :
    (updateRecord r now rssi st).dwell_time = now - r.first_seen := by
  simp only [updateRecord]

theorem updateRecord_connect_time (r : DeviceRecord) (now rssi : Int) (st : String) :
    (updateRecord r now rssi st).connect_time =
      if st = "CONNECTED" ∧ r.status ≠ "CONNECTED" then some now else r.connect_time := by
  simp only [updateRecord]
  try split <;> rfl

/-! ### Event traces -/

theorem applyDevEvents_nil (a : CrowdAnalytics) : applyDevEvents a [] = a := rfl

theorem applyDevEvents_cons (a : CrowdAnalytics) (e : TimedDev) (t : List TimedDev) :
    applyDevEvents a (e :: t) =
      applyDevEvents (add_device a e.now e.mac e.rssi e.status) t := rfl

theorem applyDevEvents_concat (a : CrowdAnalytics) (evs : List TimedDev) (e : TimedDev) :
    applyDevEvents a (evs ++ [e]) =
      add_device (applyDevEvents a evs) e.now e.mac e.rssi e.status :=
  List.foldl_concat _ _ _ _

theorem wf_applyDevEvents (evs : List TimedDev) (a : CrowdAnalytics) (hw : Wf a) :
    Wf (applyDevEvents a evs) := by
  induction evs generalizing a with
  | nil => exact hw
  | cons e t ih => exact ih _ (wf_add_device _ _ _ _ _ hw)

/-- Core of C2 over full traces: a tracked record's `connect_time` is
`None` exactly when no event for that MAC ever carried status CONNECTED,
a MAC is untracked exactly when no event mentioned it, and a record whose
status is CONNECTED always has a set `connect_time`. -/
theorem connect_time_trace (t0 : Int) (evs : List TimedDev) (mac : String) :
    (lookupDevice (applyDevEvents (initState t0) evs) mac = none ↔
      ∀ e ∈ evs, e.mac ≠ mac) ∧
    (∀ r, lookupDevice (applyDevEvents (initState t0) evs) mac = some r →
      ((r.connect_time = none ↔ ∀ e ∈ evs, e.mac = mac → e.status ≠ "CONNECTED") ∧
       (r.status = "CONNECTED" → r.connect_time ≠ none))) := by
  induction evs using List.reverseRecOn with
  | nil =>
    refine ⟨by simp [applyDevEvents_nil, lookupDevice_initState], ?_⟩
    intro r hr
    rw [applyDevEvents_nil, lookupDevice_initState] at hr
    cases hr
  | append_singleton evs e ih =>
    have hwA : Wf (applyDevEvents (initState t0) evs) :=
      wf_applyDevEvents evs _ (wf_initState t0)
    rw [applyDevEvents_concat]
    by_cases hm : e.mac = mac
    · subst hm
      cases hfind : lookupRef (applyDevEvents (initState t0) evs).devices_by_mac e.mac with
      | none =>
        have hnoneA : lookupDevice (applyDevEvents (initState t0) evs) e.mac = none :=
          (lookupDevice_eq_none_iff _ _ hwA).mpr hfind
        have hnever : ∀ x ∈ evs, x.mac ≠ e.mac := (ih.1).mp hnoneA
        have hlook := lookupDevice_add_device_new _ e.now e.mac e.rssi e.status hwA hfind
        constructor
        · rw [hlook]
          constructor
          · intro h; cases h
          · intro h
            exact absurd rfl (h e (by simp))
        · intro r hr
          rw [hlook] at hr
          obtain rfl := Option.some.inj hr
          constructor
          · simp only [newRecord]
            constructor
            · intro hct x hx
              rcases List.mem_append.mp hx with hx1 | hx2
              · exact fun hxm => absurd hxm (hnever x hx1)
              · obtain rfl := List.mem_singleton.mp hx2
                intro _ hst
                rw [hst] at hct
                simp at hct
            · intro hall
              have := hall e (by simp) rfl
              simp [this]
          · intro hst
            simp only [newRecord] at hst ⊢
            simp [hst]
      | some i =>
        obtain ⟨r0, hr0⟩ := wf_found_record _ e.mac i hwA hfind
        have hlookA : lookupDevice (applyDevEvents (initState t0) evs) e.mac = some r0 := by
          rw [lookupDevice, hfind]
          simpa using hr0
        obtain ⟨hiff0, hinv0⟩ := ih.2 r0 hlookA
        have hlook := lookupDevice_add_device_upd _ e.now e.mac e.rssi e.status r0 hwA hlookA
        constructor
        · rw [hlook]
          constructor
          · intro h; cases h
          · intro h
            exact absurd rfl (h e (by simp))
        · intro r hr
          rw [hlook] at hr
          obtain rfl := Option.some.inj hr
          rw [updateRecord_connect_time, updateRecord_status]
          by_cases hst : e.status = "CONNECTED"
          · constructor
            · constructor
              · intro hct
                by_cases hprev : r0.status = "CONNECTED"
                · rw [if_neg (by simp [hprev])] at hct
                  exact absurd hct (hinv0 hprev)
                · rw [if_pos ⟨hst, hprev⟩] at hct
                  cases hct
              · intro hall
                exact absurd hst (hall e (by simp) rfl)
            · intro _
              by_cases hprev : r0.status = "CONNECTED"
              · rw [if_neg (by simp [hprev])]
                exact hinv0 hprev
              · rw [if_pos ⟨hst, hprev⟩]
                simp
          · rw [if_neg (by simp [hst])]
            constructor
            · rw [hiff0]
              constructor
              · intro hall x hx
                rcases List.mem_append.mp hx with hx1 | hx2
                · exact hall x hx1
                · obtain rfl := List.mem_singleton.mp hx2
                  exact fun _ => hst
              · intro hall x hx
                exact hall x (List.mem_append.mpr (Or.inl hx))
            · intro hc
              exact absurd hc hst
    · rw [lookupDevice_add_device_other _ e.now e.mac mac e.rssi e.status hwA
        (fun hx => hm hx.symm)]
      constructor
      · rw [ih.1]
        constructor
        · intro hall x hx
          rcases List.mem_append.mp hx with hx1 | hx2
          · exact hall x hx1
          · obtain rfl := List.mem_singleton.mp hx2
            exact hm
        · intro hall x hx
          exact hall x (List.mem_append.mpr (Or.inl hx))
      · intro r hr
        obtain ⟨hiff0, hinv0⟩ := ih.2 r hr
        refine ⟨?_, hinv0⟩
        rw [hiff0]
        constructor
        · intro hall x hx
          rcases List.mem_append.mp hx with hx1 | hx2
          · exact hall x hx1
          · obtain rfl := List.mem_singleton.mp hx2
            exact fun hxm => absurd hxm hm
        · intro hall x hx
          exact hall x (List.mem_append.mpr (Or.inl hx))

/-- C2: a tracked device's connect_time is None exactly when the device
has never reached CONNECTED; an update sets it exactly at a transition
into CONNECTED (the start of a continuous CONNECTED run), leaves it alone
while the run continues and on non-CONNECTED events, and never resets a
set connect_time back to None; a device created directly in CONNECTED
state gets it at creation. -/
theorem C2_connect_time (t0 : Int) (evs : List TimedDev) (mac : String) :
    (∀ r, lookupDevice (applyDevEvents (initState t0) evs) mac = some r →
      (r.connect_time = none ↔ ∀ e ∈ evs, e.mac = mac → e.status ≠ "CONNECTED")) ∧
    (∀ (a : CrowdAnalytics) (now rssi : Int) (st : String) (r : DeviceRecord),
      Wf a → lookupDevice a mac = some r →
      lookupDevice (add_device a now mac rssi st) mac =
        some (updateRecord r now rssi st) ∧
      (st = "CONNECTED" → r.status ≠ "CONNECTED" →
        (updateRecord r now rssi st).connect_time = some now) ∧
      (st = "CONNECTED" → r.status = "CONNECTED" →
        (updateRecord r now rssi st).connect_time = r.connect_time) ∧
      (st ≠ "CONNECTED" →
        (updateRecord r now rssi st).connect_time = r.connect_time) ∧
      (r.connect_time ≠ none →
        (updateRecord r now rssi st).connect_time ≠ none)) ∧
    (∀ (now rssi : Int) (st : String),
      (newRecord now rssi st).connect_time = none ↔ st ≠ "CONNECTED") := by
  refine ⟨fun r hr => ((connect_time_trace t0 evs mac).2 r hr).1, ?_, ?_⟩
  · intro a now rssi st r hw hr
    refine ⟨lookupDevice_add_device_upd a now mac rssi st r hw hr, ?_, ?_, ?_, ?_⟩
    · intro hst hprev
      rw [updateRecord_connect_time, if_pos ⟨hst, hprev⟩]
    · intro hst hprev
      rw [updateRecord_connect_time, if_neg (by simp [hprev])]
    · intro hst
      rw [updateRecord_connect_time, if_neg (by simp [hst])]
    · intro hct
      rw [updateRecord_connect_time]
      split
      · simp
      · exact hct
  · intro now rssi st
    simp only [newRecord]
    constructor
    · intro h
      intro hst
      rw [hst] at h
      simp at h
    · intro h
      simp [h]

/-- Witness for C2: a NEARBY-then-CONNECTED trace for one MAC, checked at
the concrete resulting record, plus a concrete update step. -/
theorem C2_witness :
    Wf (applyDevEvents (initState 0)
        [⟨0, "AA", -40, "NEARBY"⟩, ⟨1, "AA", -38, "CONNECTED"⟩]) ∧
    lookupDevice (applyDevEvents (initState 0)
        [⟨0, "AA", -40, "NEARBY"⟩, ⟨1, "AA", -38, "CONNECTED"⟩]) "AA" =
      some ⟨0, 1, [-40, -38], "CONNECTED", some 1, 1⟩ ∧
    (((⟨0, 1, [-40, -38], "CONNECTED", some 1, 1⟩ : DeviceRecord).connect_time = none) ↔
      (∀ e ∈ [(⟨0, "AA", -40, "NEARBY"⟩ : TimedDev), ⟨1, "AA", -38, "CONNECTED"⟩],
        e.mac = "AA" → e.status ≠ "CONNECTED")) := by
  refine ⟨⟨by decide, by decide⟩, by decide, ?_⟩
  exact (C2_connect_time 0
      [⟨0, "AA", -40, "NEARBY"⟩, ⟨1, "AA", -38, "CONNECTED"⟩] "AA").1
      ⟨0, 1, [-40, -38], "CONNECTED", some 1, 1⟩ (by decide)

/-! ### The dwell-time invariant -/

/-- All records reachable in a state are internally consistent and no
record's `last_seen` exceeds the bound `b` (the time of the last applied
event). -/
def DwellInv (b : Int) (a : CrowdAnalytics) : Prop :=
  ∀ mac r, lookupDevice a mac = some r →
    r.first_seen ≤ r.last_seen ∧ r.last_seen ≤ b ∧
    r.dwell_time = r.last_seen - r.first_seen

theorem dwell_inv_step (a : CrowdAnalytics) (b now : Int) (mac : String) (rssi : Int)
    (st : String) (hw : Wf a) (hinv : DwellInv b a) (hb : b ≤ now) :
    DwellInv now (add_device a now mac rssi st) := by
  intro mac' r' h'
  by_cases hm : mac' = mac
  · subst hm
    cases hfind : lookupRef a.devices_by_mac mac' with
    | none =>
      rw [lookupDevice_add_device_new a now mac' rssi st hw hfind] at h'
      obtain rfl := Option.some.inj h'
      simp [newRecord]
    | some i =>
      obtain ⟨r0, hr0⟩ := wf_found_record a mac' i hw hfind
      have hlook0 : lookupDevice a mac' = some r0 := by
        rw [lookupDevice, hfind]; simpa using hr0
      rw [lookupDevice_add_device_upd a now mac' rssi st r0 hw hlook0] at h'
      obtain rfl := Option.some.inj h'
      obtain ⟨h1, h2, _⟩ := hinv mac' r0 hlook0
      rw [updateRecord_first_seen, updateRecord_last_seen, updateRecord_dwell_time]
      exact ⟨le_trans h1 (le_trans h2 hb), le_refl now, rfl⟩
  · rw [lookupDevice_add_device_other a now mac mac' rssi st hw hm] at h'
    obtain ⟨h1, h2, h3⟩ := hinv mac' r' h'
    exact ⟨h1, le_trans h2 hb, h3⟩

theorem dwell_inv_trace (evs : List TimedDev) (a : CrowdAnalytics) (b : Int)
    (hw : Wf a) (hinv : DwellInv b a)
    (hch : List.Chain' (· ≤ ·) (b :: evs.map TimedDev.now)) :
    ∃ c, DwellInv c (applyDevEvents a evs) := by
  induction evs generalizing a b with
  | nil => exact ⟨b, hinv⟩
  | cons e t ih =>
    rw [List.map_cons, List.chain'_cons] at hch
    exact ih (add_device a e.now e.mac e.rssi e.status) e.now
      (wf_add_device a e.now e.mac e.rssi e.status hw)
      (dwell_inv_step a b e.now e.mac e.rssi e.status hw hinv hch.1) hch.2

theorem dwell_inv_applyDevEvents (t0 : Int) (evs : List TimedDev)
    (hmono : List.Chain' (· ≤ ·) (evs.map TimedDev.now)) :
    ∃ c, DwellInv c (applyDevEvents (initState t0) evs) := by
  cases evs with
  | nil =>
    exact ⟨t0, fun mac r hr => by rw [applyDevEvents_nil, lookupDevice_initState] at hr; cases hr⟩
  | cons e t =>
    refine dwell_inv_trace (e :: t) (initState t0) e.now (wf_initState t0) ?_ ?_
    · intro mac r hr
      rw [lookupDevice_initState] at hr
      cases hr
    · rw [List.map_cons, List.chain'_cons]
      exact ⟨le_refl _, by simpa using hmono⟩

/-- C3: under non-decreasing event timestamps every tracked record
satisfies first_seen ≤ last_seen with dwell_time = last_seen − first_seen;
an update of an existing record preserves first_seen and stamps last_seen
with the event time, and events for one MAC leave other records
untouched. -/
theorem C3_first_last_dwell (t0 : Int) (evs : List TimedDev)
    (hmono : List.Chain' (· ≤ ·) (evs.map TimedDev.now)) :
    (∀ mac r, lookupDevice (applyDevEvents (initState t0) evs) mac = some r →
      r.first_seen ≤ r.last_seen ∧ r.dwell_time = r.last_seen - r.first_seen) ∧
    (∀ (a : CrowdAnalytics) (now : Int) (mac : String) (rssi : Int) (st : String)
        (r : DeviceRecord), Wf a → lookupDevice a mac = some r →
      lookupDevice (add_device a now mac rssi st) mac =
        some (updateRecord r now rssi st) ∧
      (updateRecord r now rssi st).first_seen = r.first_seen ∧
      (updateRecord r now rssi st).last_seen = now) ∧
    (∀ (a : CrowdAnalytics) (now : Int) (mac mac' : String) (rssi : Int) (st : String),
      Wf a → mac' ≠ mac →
      lookupDevice (add_device a now mac rssi st) mac' = lookupDevice a mac') := by
  refine ⟨?_, ?_, ?_⟩
  · obtain ⟨c, hinv⟩ := dwell_inv_applyDevEvents t0 evs hmono
    intro mac r hr
    obtain ⟨h1, _, h3⟩ := hinv mac r hr
    exact ⟨h1, h3⟩
  · intro a now mac rssi st r hw hr
    exact ⟨lookupDevice_add_device_upd a now mac rssi st r hw hr,
      updateRecord_first_seen r now rssi st, updateRecord_last_seen r now rssi st⟩
  · intro a now mac mac' rssi st hw hne
    exact lookupDevice_add_device_other a now mac mac' rssi st hw hne

/-- Witness for C3 at a concrete monotone two-event trace. -/
theorem C3_witness :
    List.Chain' (· ≤ ·) (([⟨0, "AA", -40, "NEARBY"⟩, ⟨5, "AA", -38, "CONNECTED"⟩] :
      List TimedDev).map TimedDev.now) ∧
    lookupDevice (applyDevEvents (initState 0)
        [⟨0, "AA", -40, "NEARBY"⟩, ⟨5, "AA", -38, "CONNECTED"⟩]) "AA" =
      some ⟨0, 5, [-40, -38], "CONNECTED", some 5, 5⟩ ∧
    ((0 : Int) ≤ 5 ∧ (5 : Int) = 5 - 0) := by
  refine ⟨by norm_num [List.chain'_cons, List.chain'_singleton], by decide, ?_⟩
  have h := (C3_first_last_dwell 0
      [⟨0, "AA", -40, "NEARBY"⟩, ⟨5, "AA", -38, "CONNECTED"⟩]
      (by norm_num [List.chain'_cons, List.chain'_singleton])).1
      "AA" ⟨0, 5, [-40, -38], "CONNECTED", some 5, 5⟩ (by decide)
  exact ⟨h.1, h.2⟩

/-! ### Device-key evolution under raw lines -/

/-- The normalized MAC of each line that parses as a device event, in
arrival order ("ever seen" identifiers). -/
def macsSeen (ls : List (Int × String)) : List String :=
  ls.filterMap (fun p => (parse_device_line p.2).map DeviceEvent.mac)

theorem processStatsLine_devices (a : CrowdAnalytics) (now : Int) (line : String) :
    (processStatsLine a now line).devices_by_mac = a.devices_by_mac := by
  unfold processStatsLine
  cases parse_stats_line line <;> rfl

theorem add_device_keys (a : CrowdAnalytics) (now : Int) (mac : String) (rssi : Int)
    (st : String) :
    (add_device a now mac rssi st).devices_by_mac.map Prod.fst =
      a.devices_by_mac.map Prod.fst ++
        (if lookupRef a.devices_by_mac mac = none then [mac] else []) := by
  cases hfind : lookupRef a.devices_by_mac mac with
  | none => rw [add_device_of_new a now mac rssi st hfind]; simp
  | some i =>
    cases hr : a.store[i]? with
    | some r => rw [add_device_of_found a now mac rssi st i r hfind hr]; simp
    | none => simp [add_device, hfind, hr]

theorem applyLines_concat (a : CrowdAnalytics) (ls : List (Int × String))
    (p : Int × String) :
    applyLines a (ls ++ [p]) = processLine (applyLines a ls) p.1 p.2 :=
  List.foldl_concat _ _ _ _

theorem applyLines_keys (t0 : Int) (ls : List (Int × String)) :
    ((applyLines (initState t0) ls).devices_by_mac.map Prod.fst).Nodup ∧
    (∀ m, m ∈ (applyLines (initState t0) ls).devices_by_mac.map Prod.fst ↔
      m ∈ macsSeen ls) := by
  induction ls using List.reverseRecOn with
  | nil => simp [applyLines, initState, macsSeen]
  | append_singleton ls p ih =>
    rw [applyLines_concat]
    have hsplit : macsSeen (ls ++ [p]) =
        macsSeen ls ++ (macsSeen [p]) := by
      unfold macsSeen
      rw [List.filterMap_append]
    unfold processLine
    rw [processStatsLine_devices]
    cases hparse : parse_device_line p.2 with
    | none =>
      have hdev : processDeviceLine (applyLines (initState t0) ls) p.1 p.2 =
          applyLines (initState t0) ls := by
        unfold processDeviceLine
        rw [hparse]
      rw [hdev, hsplit]
      have hempty : macsSeen [p] = [] := by
        unfold macsSeen
        simp [hparse]
      rw [hempty, List.append_nil]
      exact ih
    | some e =>
      have hdev : processDeviceLine (applyLines (initState t0) ls) p.1 p.2 =
          add_device (applyLines (initState t0) ls) p.1 e.mac e.rssi e.status := by
        unfold processDeviceLine
        rw [hparse]
      have hone : macsSeen [p] = [e.mac] := by
        unfold macsSeen
        simp [hparse]
      rw [hdev, hsplit, hone, add_device_keys]
      cases hfind : lookupRef (applyLines (initState t0) ls).devices_by_mac e.mac with
      | none =>
        have hnotin : e.mac ∉ (applyLines (initState t0) ls).devices_by_mac.map Prod.fst :=
          (lookupRef_eq_none_iff _ _).mp hfind
        rw [if_pos rfl]
        constructor
        · rw [List.nodup_append]
          exact ⟨ih.1, List.nodup_singleton _, by
            intro x hx hx'
            obtain rfl := List.mem_singleton.mp hx'
            exact hnotin hx⟩
        · intro m
          rw [List.mem_append, List.mem_append, ih.2 m]
      | some i =>
        have hin : e.mac ∈ (applyLines (initState t0) ls).devices_by_mac.map Prod.fst := by
          by_contra hno
          rw [← lookupRef_eq_none_iff] at hno
          rw [hno] at hfind
          cases hfind
        rw [if_neg (by simp [hfind]), List.append_nil]
        refine ⟨ih.1, ?_⟩
        intro m
        rw [List.mem_append, ih.2 m]
        constructor
        · exact fun h => Or.inl h
        · intro h
          rcases h with h | h
          · exact h
          · obtain rfl := List.mem_singleton.mp h
            exact (ih.2 _).mp hin

/-- C4: after any sequence of raw lines the number of tracked device
records equals the number of distinct (case-normalized) MAC identifiers
among the successfully parsed device lines, and processing a line only
ever appends device keys — no record is removed. -/
theorem C4_unique_devices (t0 : Int) (ls : List (Int × String)) :
    (applyLines (initState t0) ls).devices_by_mac.length =
      (macsSeen ls).dedup.length ∧
    (∀ (a : CrowdAnalytics) (now : Int) (line : String), ∃ tail,
      (processLine a now line).devices_by_mac.map Prod.fst =
        a.devices_by_mac.map Prod.fst ++ tail) := by
  constructor
  · obtain ⟨hnd, hmem⟩ := applyLines_keys t0 ls
    have hperm : ((applyLines (initState t0) ls).devices_by_mac.map Prod.fst).Perm
        (macsSeen ls).dedup := by
      rw [List.perm_ext_iff_of_nodup hnd (List.nodup_dedup _)]
      intro m
      rw [hmem m, List.mem_dedup]
    have := hperm.length_eq
    rwa [List.length_map] at this
  · intro a now line
    unfold processLine
    rw [processStatsLine_devices]
    cases hparse : parse_device_line line with
    | none =>
      refine ⟨[], ?_⟩
      unfold processDeviceLine
      rw [hparse, List.append_nil]
    | some e =>
      refine ⟨if lookupRef a.devices_by_mac e.mac = none then [e.mac] else [], ?_⟩
      unfold processDeviceLine
      rw [hparse, add_device_keys]

/-! ### The hourly histogram under monotone time -/

theorem hourKey_mono {s t : Int} (h : s ≤ t) : hourKey s ≤ hourKey t :=
  Int.ediv_le_ediv (by norm_num) h

theorem hourlyIncr_keys (l : List (Int × Nat)) (k : Int) :
    (hourlyIncr l k).map Prod.fst =
      if k ∈ l.map Prod.fst then l.map Prod.fst else l.map Prod.fst ++ [k] := by
  induction l with
  | nil => simp [hourlyIncr]
  | cons x t ih =>
    obtain ⟨k', v⟩ := x
    by_cases hk : k' = k
    · subst hk
      simp [hourlyIncr]
    · simp only [hourlyIncr, hk, if_false, List.map_cons, ih]
      by_cases hmem : k ∈ t.map Prod.fst
      · simp [hmem, Ne.symm hk]
      · simp [hmem, Ne.symm hk]

theorem hourlyIncr_mem (l : List (Int × Nat)) (k : Int) (p : Int × Nat)
    (hp : p ∈ hourlyIncr l k) : p ∈ l ∨ p.1 = k := by
  induction l with
  | nil =>
    simp only [hourlyIncr, List.mem_singleton] at hp
    right; rw [hp]
  | cons x t ih =>
    obtain ⟨k', v⟩ := x
    simp only [hourlyIncr] at hp
    split at hp
    · next hk =>
      rcases List.mem_cons.mp hp with heq | hmem
      · right; rw [heq]; exact hk
      · left; exact List.mem_cons_of_mem _ hmem
    · rcases List.mem_cons.mp hp with heq | hmem
      · left; rw [heq]; exact List.mem_cons_self _ _
      · rcases ih hmem with h | h
        · left; exact List.mem_cons_of_mem _ h
        · right; exact h

theorem add_device_hourly (a : CrowdAnalytics) (now : Int) (mac : String) (rssi : Int)
    (st : String) :
    (add_device a now mac rssi st).hourly_stats =
      hourlyIncr a.hourly_stats (hourKey now) := by
  cases hfind : lookupRef a.devices_by_mac mac with
  | none => rw [add_device_of_new a now mac rssi st hfind]
  | some i =>
    cases hr : a.store[i]? with
    | some r => rw [add_device_of_found a now mac rssi st i r hfind hr]
    | none => simp [add_device, hfind, hr]

/-- Keys of the hourly histogram are strictly increasing in insertion
order and bounded by the hour of the last applied event. -/
def HourInv (b : Int) (a : CrowdAnalytics) : Prop :=
  List.Pairwise (· < ·) (a.hourly_stats.map Prod.fst) ∧
  ∀ k ∈ a.hourly_stats.map Prod.fst, k ≤ hourKey b

theorem hour_inv_step (a : CrowdAnalytics) (b now : Int) (mac : String) (rssi : Int)
    (st : String) (hinv : HourInv b a) (hb : b ≤ now) :
    HourInv now (add_device a now mac rssi st) := by
  have hkm : hourKey b ≤ hourKey now := hourKey_mono hb
  constructor
  · rw [add_device_hourly, hourlyIncr_keys]
    by_cases hmem : hourKey now ∈ a.hourly_stats.map Prod.fst
    · rw [if_pos hmem]; exact hinv.1
    · rw [if_neg hmem]
      rw [List.pairwise_append]
      refine ⟨hinv.1, List.pairwise_singleton _ _, ?_⟩
      intro x hx y hy
      obtain rfl := List.mem_singleton.mp hy
      exact lt_of_le_of_ne (le_trans (hinv.2 x hx) hkm) (fun hxy => hmem (hxy ▸ hx))
  · rw [add_device_hourly, hourlyIncr_keys]
    by_cases hmem : hourKey now ∈ a.hourly_stats.map Prod.fst
    · rw [if_pos hmem]
      exact fun k hk => le_trans (hinv.2 k hk) hkm
    · rw [if_neg hmem]
      intro k hk
      rcases List.mem_append.mp hk with hk | hk
      · exact le_trans (hinv.2 k hk) hkm
      · obtain rfl := List.mem_singleton.mp hk
        exact le_refl _

theorem hour_inv_trace (evs : List TimedDev) (a : CrowdAnalytics) (b : Int)
    (hinv : HourInv b a) (hch : List.Chain' (· ≤ ·) (b :: evs.map TimedDev.now)) :
    ∃ c, HourInv c (applyDevEvents a evs) := by
  induction evs generalizing a b with
  | nil => exact ⟨b, hinv⟩
  | cons e t ih =>
    rw [List.map_cons, List.chain'_cons] at hch
    exact ih (add_device a e.now e.mac e.rssi e.status) e.now
      (hour_inv_step a b e.now e.mac e.rssi e.status hinv hch.1) hch.2

theorem hour_inv_applyDevEvents (t0 : Int) (evs : List TimedDev)
    (hmono : List.Chain' (· ≤ ·) (evs.map TimedDev.now)) :
    ∃ c, HourInv c (applyDevEvents (initState t0) evs) := by
  cases evs with
  | nil =>
    exact ⟨t0, by simp [applyDevEvents_nil, initState, HourInv]⟩
  | cons e t =>
    refine hour_inv_trace (e :: t) (initState t0) e.now ?_ ?_
    · exact ⟨by simp [initState], by simp [initState]⟩
    · rw [List.map_cons, List.chain'_cons]
      exact ⟨le_refl _, by simpa using hmono⟩

/-! ### Python max over an association list with sorted keys -/

theorem pyMaxBySnd_spec (x : Int × Nat) (xs : List (Int × Nat))
    (hs : List.Pairwise (· < ·) ((x :: xs).map Prod.fst)) :
    ∃ m, pyMaxBySnd (x :: xs) = some m ∧ m ∈ x :: xs ∧
      (∀ p ∈ x :: xs, p.2 ≤ m.2) ∧ (∀ p ∈ x :: xs, p.2 = m.2 → m.1 ≤ p.1) := by
  suffices h : ∀ (xs : List (Int × Nat)) (x : Int × Nat),
      List.Pairwise (· < ·) ((x :: xs).map Prod.fst) →
      (xs.foldl (fun acc y => if acc.2 < y.2 then y else acc) x) ∈ x :: xs ∧
      (∀ p ∈ x :: xs, p.2 ≤ (xs.foldl (fun acc y => if acc.2 < y.2 then y else acc) x).2) ∧
      (∀ p ∈ x :: xs, p.2 = (xs.foldl (fun acc y => if acc.2 < y.2 then y else acc) x).2 →
        (xs.foldl (fun acc y => if acc.2 < y.2 then y else acc) x).1 ≤ p.1) by
    obtain ⟨h1, h2, h3⟩ := h xs x hs
    exact ⟨_, rfl, h1, h2, h3⟩
  intro xs
  induction xs with
  | nil =>
    intro x _
    refine ⟨List.mem_cons_self _ _, ?_, ?_⟩
    · intro p hp
      obtain rfl := List.mem_singleton.mp hp
      exact le_refl _
    · intro p hp _
      obtain rfl := List.mem_singleton.mp hp
      exact le_refl _
  | cons y ys ih =>
    intro x hs
    have hxy : x.1 < y.1 := by
      rw [List.map_cons, List.map_cons, List.pairwise_cons] at hs
      exact hs.1 y.1 (by simp)
    have hs' : List.Pairwise (· < ·)
        (((if x.2 < y.2 then y else x) :: ys).map Prod.fst) := by
      rw [List.map_cons, List.pairwise_cons]
      rw [List.map_cons, List.map_cons, List.pairwise_cons] at hs
      have hs2 := hs.2
      rw [List.pairwise_cons] at hs2
      constructor
      · intro k hk
        split
        · exact hs2.1 k hk
        · exact hs.1 k (List.mem_cons_of_mem _ hk)
      · exact hs2.2
    have hfold : (y :: ys).foldl (fun acc z => if acc.2 < z.2 then z else acc) x =
        ys.foldl (fun acc z => if acc.2 < z.2 then z else acc)
          (if x.2 < y.2 then y else x) := rfl
    obtain ⟨ih1, ih2, ih3⟩ := ih (if x.2 < y.2 then y else x) hs'
    rw [hfold]
    set x' := if x.2 < y.2 then y else x with hx'
    set m := ys.foldl (fun acc z => if acc.2 < z.2 then z else acc) x' with hm
    have hx'm : x'.2 ≤ m.2 := ih2 _ (List.mem_cons_self _ _)
    have hx'tie : x'.2 = m.2 → m.1 ≤ x'.1 := ih3 _ (List.mem_cons_self _ _)
    have hxle : x.2 ≤ m.2 := by
      by_cases hlt : x.2 < y.2
      · have hy : x' = y := if_pos hlt
        calc x.2 ≤ y.2 := le_of_lt hlt
          _ = x'.2 := by rw [hy]
          _ ≤ m.2 := hx'm
      · have hx : x' = x := if_neg hlt
        calc x.2 = x'.2 := by rw [hx]
          _ ≤ m.2 := hx'm
    have hyle : y.2 ≤ m.2 := by
      by_cases hlt : x.2 < y.2
      · have hy : x' = y := if_pos hlt
        calc y.2 = x'.2 := by rw [hy]
          _ ≤ m.2 := hx'm
      · have hx : x' = x := if_neg hlt
        calc y.2 ≤ x.2 := le_of_not_lt hlt
          _ = x'.2 := by rw [hx]
          _ ≤ m.2 := hx'm
    refine ⟨?_, ?_, ?_⟩
    · rcases List.mem_cons.mp ih1 with h | h
      · rw [h, hx']
        split
        · exact List.mem_cons_of_mem _ (List.mem_cons_self _ _)
        · exact List.mem_cons_self _ _
      · exact List.mem_cons_of_mem _ (List.mem_cons_of_mem _ h)
    · intro p hp
      rcases List.mem_cons.mp hp with hpx | hp'
      · rw [hpx]; exact hxle
      · rcases List.mem_cons.mp hp' with hpy | hp''
        · rw [hpy]; exact hyle
        · exact ih2 p (List.mem_cons_of_mem _ hp'')
    · intro p hp hpm
      rcases List.mem_cons.mp hp with hpx | hp'
      · rw [hpx] at hpm ⊢
        by_cases hlt : x.2 < y.2
        · exfalso
          have hy : x' = y := if_pos hlt
          rw [hy] at hx'm
          omega
        · have hx : x' = x := if_neg hlt
          have := hx'tie (by rw [hx]; exact hpm)
          rwa [hx] at this
      · rcases List.mem_cons.mp hp' with hpy | hp''
        · rw [hpy] at hpm ⊢
          by_cases hlt : x.2 < y.2
          · have hy : x' = y := if_pos hlt
            have := hx'tie (by rw [hy]; exact hpm)
            rwa [hy] at this
          · have hx : x' = x := if_neg hlt
            rw [hx] at hx'm hx'tie
            have hxeq : x.2 = m.2 := by omega
            exact le_trans (hx'tie hxeq) (le_of_lt hxy)
        · exact ih3 p (List.mem_cons_of_mem _ hp'') hpm

/-! ### The analytics report -/

theorem report_peak_hour (a : CrowdAnalytics) (now : Int) :
    (generate_analytics_report a now).peak_hour =
      (pyMaxBySnd a.hourly_stats).map Prod.fst := rfl

theorem report_peak_hour_count (a : CrowdAnalytics) (now : Int) :
    (generate_analytics_report a now).peak_hour_count =
      ((pyMaxBySnd a.hourly_stats).map Prod.snd).getD 0 := rfl

theorem report_avg_dwell (a : CrowdAnalytics) (now : Int) :
    (generate_analytics_report a now).avg_dwell_time_seconds =
      if ((deviceRecords a).map (fun d => (d.dwell_time : ℚ))) ≠ []
      then listMean ((deviceRecords a).map (fun d => (d.dwell_time : ℚ)))
      else 0 := rfl

theorem deviceRecords_lookup (a : CrowdAnalytics) (hw : Wf a) (r : DeviceRecord)
    (hr : r ∈ deviceRecords a) : ∃ mac, lookupDevice a mac = some r := by
  unfold deviceRecords at hr
  obtain ⟨mi, hmi, hget⟩ := List.mem_filterMap.mp hr
  refine ⟨mi.1, ?_⟩
  rw [lookupDevice, lookupRef_of_mem_nodup a.devices_by_mac mi.1 mi.2 hw.2 (by
    simpa using hmi)]
  simpa using hget

/-- C7: for a monotone event trace, the report's peak hour carries the
maximal hourly count and, among hours achieving it, the earliest hour key;
and the reported average dwell time is the arithmetic mean of the tracked
records' dwell seconds (`last_seen − first_seen`), 0 with no devices. -/
theorem C7_peak_and_avg_dwell (t0 : Int) (evs : List TimedDev) (nowR : Int)
    (hmono : List.Chain' (· ≤ ·) (evs.map TimedDev.now)) :
    (∀ k, (generate_analytics_report (applyDevEvents (initState t0) evs) nowR).peak_hour
        = some k →
      (k, (generate_analytics_report (applyDevEvents (initState t0) evs)
          nowR).peak_hour_count) ∈ (applyDevEvents (initState t0) evs).hourly_stats ∧
      (∀ p ∈ (applyDevEvents (initState t0) evs).hourly_stats,
        p.2 ≤ (generate_analytics_report (applyDevEvents (initState t0) evs)
          nowR).peak_hour_count ∧
        (p.2 = (generate_analytics_report (applyDevEvents (initState t0) evs)
          nowR).peak_hour_count → k ≤ p.1))) ∧
    ((generate_analytics_report (applyDevEvents (initState t0) evs)
        nowR).avg_dwell_time_seconds =
      if deviceRecords (applyDevEvents (initState t0) evs) = [] then 0
      else ((deviceRecords (applyDevEvents (initState t0) evs)).map
          (fun r => ((r.last_seen - r.first_seen : Int) : ℚ))).sum /
        ((deviceRecords (applyDevEvents (initState t0) evs)).length : ℚ)) := by
  constructor
  · intro k hk
    rw [report_peak_hour] at hk
    cases hl : (applyDevEvents (initState t0) evs).hourly_stats with
    | nil =>
      rw [hl] at hk
      cases hk
    | cons x xs =>
      obtain ⟨c, hinv⟩ := hour_inv_applyDevEvents t0 evs hmono
      have hpair : List.Pairwise (· < ·) ((x :: xs).map Prod.fst) := by
        rw [← hl]; exact hinv.1
      obtain ⟨m, hmax, hmem, hbound, htie⟩ := pyMaxBySnd_spec x xs hpair
      rw [hl, hmax] at hk
      obtain rfl := Option.some.inj hk
      have hcount : (generate_analytics_report (applyDevEvents (initState t0) evs)
          nowR).peak_hour_count = m.2 := by
        rw [report_peak_hour_count, hl, hmax]
        rfl
      rw [hcount]
      exact ⟨hmem, fun p hp => ⟨hbound p hp, htie p hp⟩⟩
  · have hW := wf_applyDevEvents evs _ (wf_initState t0)
    obtain ⟨c, hdw⟩ := dwell_inv_applyDevEvents t0 evs hmono
    have hmapeq : (deviceRecords (applyDevEvents (initState t0) evs)).map
        (fun d => (d.dwell_time : ℚ)) =
        (deviceRecords (applyDevEvents (initState t0) evs)).map
          (fun d => ((d.last_seen - d.first_seen : Int) : ℚ)) := by
      refine List.map_congr_left ?_
      intro r hr
      obtain ⟨mac, hmac⟩ := deviceRecords_lookup _ hW r hr
      obtain ⟨_, _, h3⟩ := hdw mac r hmac
      rw [h3]
    rw [report_avg_dwell, hmapeq]
    cases hrec : deviceRecords (applyDevEvents (initState t0) evs) with
    | nil => simp
    | cons d ds =>
      rw [if_pos (by simp), if_neg (by simp)]
      unfold listMean
      rw [List.length_map]

/-- Witness for C7 at a concrete monotone trace: two events in hour 0 for
one MAC and one event in hour 1 for another, checked against the computed
report. -/
theorem C7_witness :
    ((generate_analytics_report (applyDevEvents (initState 0)
        [⟨0, "AA", -40, "NEARBY"⟩, ⟨10, "AA", -42, "NEARBY"⟩,
         ⟨3600, "BB", -50, "NEARBY"⟩]) 7200).peak_hour = some 0 ∧
     (0, (generate_analytics_report (applyDevEvents (initState 0)
        [⟨0, "AA", -40, "NEARBY"⟩, ⟨10, "AA", -42, "NEARBY"⟩,
         ⟨3600, "BB", -50, "NEARBY"⟩]) 7200).peak_hour_count) ∈
       (applyDevEvents (initState 0)
        [⟨0, "AA", -40, "NEARBY"⟩, ⟨10, "AA", -42, "NEARBY"⟩,
         ⟨3600, "BB", -50, "NEARBY"⟩]).hourly_stats) ∧
    (generate_analytics_report (applyDevEvents (initState 0)
        [⟨0, "AA", -40, "NEARBY"⟩, ⟨10, "AA", -42, "NEARBY"⟩,
         ⟨3600, "BB", -50, "NEARBY"⟩]) 7200).avg_dwell_time_seconds =
      if deviceRecords (applyDevEvents (initState 0)
        [⟨0, "AA", -40, "NEARBY"⟩, ⟨10, "AA", -42, "NEARBY"⟩,
         ⟨3600, "BB", -50, "NEARBY"⟩]) = [] then 0
      else ((deviceRecords (applyDevEvents (initState 0)
        [⟨0, "AA", -40, "NEARBY"⟩, ⟨10, "AA", -42, "NEARBY"⟩,
         ⟨3600, "BB", -50, "NEARBY"⟩])).map
          (fun r => ((r.last_seen - r.first_seen : Int) : ℚ))).sum /
        ((deviceRecords (applyDevEvents (initState 0)
        [⟨0, "AA", -40, "NEARBY"⟩, ⟨10, "AA", -42, "NEARBY"⟩,
         ⟨3600, "BB", -50, "NEARBY"⟩])).length : ℚ) := by
  have hch : List.Chain' (· ≤ ·) (([⟨0, "AA", -40, "NEARBY"⟩, ⟨10, "AA", -42, "NEARBY"⟩,
      ⟨3600, "BB", -50, "NEARBY"⟩] : List TimedDev).map TimedDev.now) := by
    norm_num [List.chain'_cons, List.chain'_singleton]
  have hpk : (generate_analytics_report (applyDevEvents (initState 0)
      [⟨0, "AA", -40, "NEARBY"⟩, ⟨10, "AA", -42, "NEARBY"⟩,
       ⟨3600, "BB", -50, "NEARBY"⟩]) 7200).peak_hour = some 0 := by decide
  exact ⟨⟨hpk, ((C7_peak_and_avg_dwell 0
      [⟨0, "AA", -40, "NEARBY"⟩, ⟨10, "AA", -42, "NEARBY"⟩,
       ⟨3600, "BB", -50, "NEARBY"⟩] 7200 hch).1 0 hpk).1⟩,
    (C7_peak_and_avg_dwell 0
      [⟨0, "AA", -40, "NEARBY"⟩, ⟨10, "AA", -42, "NEARBY"⟩,
       ⟨3600, "BB", -50, "NEARBY"⟩] 7200 hch).2⟩

/-! ### Arbitrary status tokens -/

/-- Concrete device line up to and including the `STATUS:` label, used to
probe the parser with an arbitrary trailing status token. -/
def statusLinePre : List Char :=
  "[DEVICE] MAC:AA:BB:CC:DD:EE:01 | RSSI:-40 | STATUS:".toList

/-- C10: the parser accepts any nonempty word token as the STATUS field
and hands it over verbatim; `add_device` stores it verbatim as the
record's status, and only the exact uppercase string CONNECTED triggers
the connect_time logic — any other token (including lowercase variants)
never sets connect_time. -/
theorem C10_status_token :
    (∀ tok : List Char, tok ≠ [] → (∀ c ∈ tok, isWordChar c) →
      parse_device_line (String.mk (statusLinePre ++ tok)) =
        some ⟨"AA:BB:CC:DD:EE:01", -40, String.mk tok⟩) ∧
    (∀ (a : CrowdAnalytics) (now : Int) (mac : String) (rssi : Int) (st : String),
      Wf a → st ≠ "CONNECTED" →
      (lookupDevice a mac = none →
        lookupDevice (add_device a now mac rssi st) mac = some (newRecord now rssi st) ∧
        (newRecord now rssi st).status = st ∧
        (newRecord now rssi st).connect_time = none) ∧
      (∀ r, lookupDevice a mac = some r →
        lookupDevice (add_device a now mac rssi st) mac =
          some (updateRecord r now rssi st) ∧
        (updateRecord r now rssi st).status = st ∧
        (updateRecord r now rssi st).connect_time = r.connect_time)) := by
  constructor
  · intro tok h1 h2
    have hcapW : tok.takeWhile isWordChar = tok := List.takeWhile_eq_self_iff.mpr h2
    have hne : tok.isEmpty = false := by
      cases tok with
      | nil => exact absurd rfl h1
      | cons x xs => rfl
    have hmac : searchMac (statusLinePre ++ tok) = some "AA:BB:CC:DD:EE:01".toList := by
      simp [statusLinePre, searchMac, matchLitCI, ciEq, isHexColonChar]
    have hrssi : searchRssi (statusLinePre ++ tok) = some (-40) := by
      simp [statusLinePre, searchRssi, matchLit, digitsToNat]
    have hst : searchStatus (statusLinePre ++ tok) = some tok := by
      simp [statusLinePre, searchStatus, matchLit, hcapW, hne]
    have hcont : containsSub "[DEVICE]".toList (statusLinePre ++ tok) = true := by
      simp [statusLinePre, containsSub, hasPrefixCh]
    have htl : (String.mk (statusLinePre ++ tok)).toList = statusLinePre ++ tok := rfl
    rw [parse_device_line]
    rw [htl, if_pos hcont, hmac, hrssi, hst]
    simp
  · intro a now mac rssi st hw hst
    constructor
    · intro hnone
      have hfind : lookupRef a.devices_by_mac mac = none :=
        (lookupDevice_eq_none_iff a mac hw).mp hnone
      refine ⟨lookupDevice_add_device_new a now mac rssi st hw hfind, rfl, ?_⟩
      simp only [newRecord]
      simp [hst]
    · intro r hr
      refine ⟨lookupDevice_add_device_upd a now mac rssi st r hw hr,
        updateRecord_status r now rssi st, ?_⟩
      rw [updateRecord_connect_time, if_neg (by simp [hst])]

/-- Witness for C10: the lowercase token "connected" parses verbatim and,
applied to a fresh device, does not set connect_time. -/
theorem C10_witness :
    ("connected".toList ≠ [] ∧ (∀ c ∈ "connected".toList, isWordChar c) ∧
      parse_device_line (String.mk (statusLinePre ++ "connected".toList)) =
        some ⟨"AA:BB:CC:DD:EE:01", -40, String.mk "connected".toList⟩) ∧
    (Wf (initState 0) ∧ ("connected" : String) ≠ "CONNECTED" ∧
      lookupDevice (initState 0) "AA:BB:CC:DD:EE:01" = none ∧
      lookupDevice (add_device (initState 0) 3 "AA:BB:CC:DD:EE:01" (-40) "connected")
          "AA:BB:CC:DD:EE:01" = some (newRecord 3 (-40) "connected") ∧
      (newRecord 3 (-40) "connected").connect_time = none) := by
  refine ⟨⟨by decide, by decide,
    C10_status_token.1 "connected".toList (by decide) (by decide)⟩, ?_⟩
  have h := (C10_status_token.2 (initState 0) 3 "AA:BB:CC:DD:EE:01" (-40) "connected"
    (wf_initState 0) (by decide)).1 (by decide)
  exact ⟨wf_initState 0, by decide, by decide, h.1, h.2.2⟩

/-! ### Behaviour of the bounded deques -/

theorem dequeAppend_length_le {α : Type} (l : List α) (x : α)
    (h : l.length ≤ MAX_DATA_POINTS) :
    (dequeAppend l x).length ≤ MAX_DATA_POINTS := by
  simp only [dequeAppend]
  split
  · simp only [List.length_drop, List.length_append, List.length_cons, List.length_nil]
    omega
  · next hlt =>
    simp only [List.length_append, List.length_cons, List.length_nil] at hlt ⊢
    omega

theorem dequeAppend_full {α : Type} (l : List α) (x : α)
    (h : l.length = MAX_DATA_POINTS) : dequeAppend l x = l.tail ++ [x] := by
  simp only [dequeAppend]
  have h120 : MAX_DATA_POINTS = 120 := rfl
  rw [if_pos (by simp [h, h120])]
  have hdrop : (l ++ [x]).length - MAX_DATA_POINTS = 1 := by simp [h]
  rw [hdrop, List.drop_append_of_le_length (by omega), List.drop_one]

theorem applyStatsEvents_bounded (evs : List TimedStats) (a : CrowdAnalytics)
    (h : a.timestamps.length ≤ MAX_DATA_POINTS ∧
         a.connected_counts.length ≤ MAX_DATA_POINTS ∧
         a.nearby_counts.length ≤ MAX_DATA_POINTS ∧
         a.total_devices.length ≤ MAX_DATA_POINTS) :
    (applyStatsEvents a evs).timestamps.length ≤ MAX_DATA_POINTS ∧
    (applyStatsEvents a evs).connected_counts.length ≤ MAX_DATA_POINTS ∧
    (applyStatsEvents a evs).nearby_counts.length ≤ MAX_DATA_POINTS ∧
    (applyStatsEvents a evs).total_devices.length ≤ MAX_DATA_POINTS := by
  induction evs generalizing a with
  | nil => exact h
  | cons e t ih =>
    exact ih _ ⟨dequeAppend_length_le _ _ h.1, dequeAppend_length_le _ _ h.2.1,
      dequeAppend_length_le _ _ h.2.2.1, dequeAppend_length_le _ _ h.2.2.2⟩

/-! ### Claim theorems -/

/-- C9: after any sequence of applied StatsEvents the four rolling
time-series deques never exceed the fixed capacity `MAX_DATA_POINTS = 120`,
and a push onto a full window evicts exactly the oldest entry (FIFO). -/
theorem C9_rolling_window (t0 : Int) (evs : List TimedStats) :
    ((applyStatsEvents (initState t0) evs).timestamps.length ≤ MAX_DATA_POINTS ∧
     (applyStatsEvents (initState t0) evs).connected_counts.length ≤ MAX_DATA_POINTS ∧
     (applyStatsEvents (initState t0) evs).nearby_counts.length ≤ MAX_DATA_POINTS ∧
     (applyStatsEvents (initState t0) evs).total_devices.length ≤ MAX_DATA_POINTS) ∧
    (∀ (a : CrowdAnalytics) (now : Int) (c n tp tc : Nat),
      a.timestamps.length = MAX_DATA_POINTS →
      (add_statistics a now c n tp tc).timestamps = a.timestamps.tail ++ [now]) := by
  constructor
  · exact applyStatsEvents_bounded evs (initState t0)
      ⟨by simp [initState], by simp [initState], by simp [initState], by simp [initState]⟩
  · intro a now c n tp tc h
    simpa [add_statistics] using dequeAppend_full a.timestamps now h

/-- Witness for C9 at a concrete full window: pushing 7 onto a window of
120 zero samples drops the oldest zero and appends 7. -/
theorem C9_witness :
    (add_statistics
        { initState 0 with timestamps := List.replicate 120 0 } 7 1 2 3 4).timestamps
      = (List.replicate 120 (0 : Int)).tail ++ [7] :=
  (C9_rolling_window 0 []).2 { initState 0 with timestamps := List.replicate 120 0 }
    7 1 2 3 4 (by simp [MAX_DATA_POINTS])

/-- C6: applying a StatsEvent overwrites the stored cumulative totals with
exactly the event's reported values, whatever was stored before — no
clamping, no rejection of regressing input. -/
theorem C6_trust_the_source (a : CrowdAnalytics) (now : Int) (c n tp tc : Nat) :
    (add_statistics a now c n tp tc).total_probes = tp ∧
    (add_statistics a now c n tp tc).total_connections = tc :=
  ⟨rfl, rfl⟩

/-- C5: the connection rate is the guarded quotient — 0 on zero probes
(total function, no division fault), the percentage otherwise, and it lies
in [0, 100] whenever connections do not exceed probes; the report exposes
exactly this value for the stored totals. -/
theorem C5_division_guard :
    (∀ tc : Nat, connection_rate tc 0 = 0) ∧
    (∀ tc tp : Nat, 0 < tp →
      connection_rate tc tp = (tc : ℚ) / (tp : ℚ) * 100) ∧
    (∀ tc tp : Nat, tc ≤ tp →
      0 ≤ connection_rate tc tp ∧ connection_rate tc tp ≤ 100) ∧
    (∀ (a : CrowdAnalytics) (now : Int),
      (generate_analytics_report a now).connection_success_rate =
        connection_rate a.total_connections a.total_probes) := by
  refine ⟨fun tc => by simp [connection_rate], fun tc tp h => by simp [connection_rate, h],
    fun tc tp h => ?_, fun a now => rfl⟩
  rcases Nat.eq_zero_or_pos tp with h0 | hpos
  · subst h0
    simp [connection_rate]
  · have hrate : connection_rate tc tp = (tc : ℚ) / (tp : ℚ) * 100 := by
      simp [connection_rate, hpos]
    have htp : (0 : ℚ) < (tp : ℚ) := by exact_mod_cast hpos
    have hdiv : (tc : ℚ) / (tp : ℚ) ≤ 1 :=
      (div_le_one htp).mpr (by exact_mod_cast h)
    have hnn : (0 : ℚ) ≤ (tc : ℚ) / (tp : ℚ) :=
      div_nonneg (by positivity) (le_of_lt htp)
    constructor
    · rw [hrate]; positivity
    · rw [hrate]
      calc (tc : ℚ) / (tp : ℚ) * 100 ≤ 1 * 100 := by
            exact mul_le_mul_of_nonneg_right hdiv (by norm_num)
        _ = 100 := by norm_num

/-- Witness for C5 at concrete counter values. -/
theorem C5_witness :
    (0 : Nat) < 50 ∧ (10 : Nat) ≤ 50 ∧
    connection_rate 10 50 = (10 : ℚ) / (50 : ℚ) * 100 ∧
    0 ≤ connection_rate 10 50 ∧ connection_rate 10 50 ≤ 100 :=
  ⟨by decide, by decide, C5_division_guard.2.1 10 50 (by decide),
   (C5_division_guard.2.2.1 10 50 (by decide)).1,
   (C5_division_guard.2.2.1 10 50 (by decide)).2⟩

/-- C8: feeding the NEARBY line then the CONNECTED line for the same MAC
yields exactly one tracked device whose record has status CONNECTED,
signal history [-40, -38] in arrival order, and a set (non-None)
connect_time. -/
theorem C8_scenario :
    (processLine (processLine (initState 0) 0
        "[DEVICE] MAC:AA:BB:CC:DD:EE:01 | RSSI:-40 | STATUS:NEARBY") 1
        "[DEVICE] MAC:AA:BB:CC:DD:EE:01 | RSSI:-38 | STATUS:CONNECTED").devices_by_mac.length
      = 1 ∧
    lookupDevice (processLine (processLine (initState 0) 0
        "[DEVICE] MAC:AA:BB:CC:DD:EE:01 | RSSI:-40 | STATUS:NEARBY") 1
        "[DEVICE] MAC:AA:BB:CC:DD:EE:01 | RSSI:-38 | STATUS:CONNECTED")
        "AA:BB:CC:DD:EE:01"
      = some ⟨0, 1, [-40, -38], "CONNECTED", some 1, 1⟩ := by
  decide

/-- C1 fails as stated: `get_plot_data` copies only the top-level
dictionary, so the per-device records are shared by reference, and a later
`add_device` for an already-tracked device changes the device view of a
previously returned snapshot.  Concretely: snapshot the state after one
NEARBY event for a MAC, then apply a CONNECTED event for the same MAC —
the record seen through the old snapshot changes. -/
theorem C1_counterexample :
    snapDevices
        (add_device (add_device (initState 0) 0 "AA:BB:CC:DD:EE:01" (-40) "NEARBY")
          5 "AA:BB:CC:DD:EE:01" (-38) "CONNECTED").store
        (get_plot_data (add_device (initState 0) 0 "AA:BB:CC:DD:EE:01" (-40) "NEARBY"))
      ≠ snapDevices
        (add_device (initState 0) 0 "AA:BB:CC:DD:EE:01" (-40) "NEARBY").store
        (get_plot_data (add_device (initState 0) 0 "AA:BB:CC:DD:EE:01" (-40) "NEARBY")) := by
  decide

/-- C1 amended: the snapshot taken by `get_plot_data` copies the top-level
containers atomically — its list-valued fields, counters and device-key map
are values fixed at snapshot time — and a later `apply_stats_event` never
changes the device view of a previously returned snapshot, nor does a later
`apply_device_event` for a device not yet tracked; but because the device
dictionary copy is shallow, a later `apply_device_event` for an
already-tracked device does change that device's (and only that device's)
record as seen through the earlier snapshot. -/
theorem C1_snapshot_sharing (a : CrowdAnalytics) (hw : Wf a) :
    (∀ (now : Int) (c n tp tc : Nat),
      snapDevices (add_statistics a now c n tp tc).store (get_plot_data a) =
        snapDevices a.store (get_plot_data a)) ∧
    (∀ (now : Int) (mac : String) (rssi : Int) (st : String),
      lookupRef a.devices_by_mac mac = none →
      snapDevices (add_device a now mac rssi st).store (get_plot_data a) =
        snapDevices a.store (get_plot_data a)) ∧
    (∀ (now : Int) (mac : String) (rssi : Int) (st : String),
      ∀ p ∈ (get_plot_data a).devices, p.1 ≠ mac →
      (add_device a now mac rssi st).store[p.2]? = a.store[p.2]?) := by
  have hmemlt : ∀ p : String × Nat, p ∈ a.devices_by_mac → p.2 < a.store.length := by
    intro p hp
    have : p.2 ∈ a.devices_by_mac.map Prod.snd := List.mem_map.mpr ⟨p, hp, rfl⟩
    rw [hw.1] at this
    exact List.mem_range.mp this
  refine ⟨fun now c n tp tc => rfl, ?_, ?_⟩
  · intro now mac rssi st h
    rw [add_device_of_new a now mac rssi st h]
    simp only [snapDevices, get_plot_data]
    refine List.map_congr_left ?_
    intro p hp
    simp [List.getElem?_append, hmemlt p hp]
  · intro now mac rssi st p hp hne
    have hp' : p ∈ a.devices_by_mac := hp
    cases hfind : lookupRef a.devices_by_mac mac with
    | none =>
      rw [add_device_of_new a now mac rssi st hfind]
      simp [List.getElem?_append, hmemlt p hp']
    | some i =>
      obtain ⟨r, hr⟩ := wf_found_record a mac i hw hfind
      rw [add_device_of_found a now mac rssi st i r hfind hr]
      have hmem : (mac, i) ∈ a.devices_by_mac := lookupRef_mem _ _ _ hfind
      have hsnd : a.devices_by_mac.map Prod.snd = List.range a.store.length := hw.1
      have hnd : (a.devices_by_mac.map Prod.snd).Nodup := hsnd ▸ List.nodup_range _
      have hine : i ≠ p.2 := by
        intro hip
        have : (mac, i) = p := List.inj_on_of_nodup_map hnd hmem hp' hip
        exact hne (by rw [← this])
      simp [List.getElem?_set_ne hine]

/-- Witness for C1 at a concrete reached state: a stats event and a device
event for an untracked MAC leave an earlier snapshot's device view
unchanged. -/
theorem C1_witness :
    Wf (add_device (initState 0) 0 "AA:BB:CC:DD:EE:01" (-40) "NEARBY") ∧
    lookupRef (add_device (initState 0) 0 "AA:BB:CC:DD:EE:01" (-40) "NEARBY").devices_by_mac
      "FF:FF:FF:FF:FF:FF" = none ∧
    snapDevices (add_statistics (add_device (initState 0) 0 "AA:BB:CC:DD:EE:01" (-40) "NEARBY")
        9 1 2 3 4).store
      (get_plot_data (add_device (initState 0) 0 "AA:BB:CC:DD:EE:01" (-40) "NEARBY")) =
      snapDevices (add_device (initState 0) 0 "AA:BB:CC:DD:EE:01" (-40) "NEARBY").store
        (get_plot_data (add_device (initState 0) 0 "AA:BB:CC:DD:EE:01" (-40) "NEARBY")) ∧
    snapDevices (add_device (add_device (initState 0) 0 "AA:BB:CC:DD:EE:01" (-40) "NEARBY")
        9 "FF:FF:FF:FF:FF:FF" (-70) "NEARBY").store
      (get_plot_data (add_device (initState 0) 0 "AA:BB:CC:DD:EE:01" (-40) "NEARBY")) =
      snapDevices (add_device (initState 0) 0 "AA:BB:CC:DD:EE:01" (-40) "NEARBY").store
        (get_plot_data (add_device (initState 0) 0 "AA:BB:CC:DD:EE:01" (-40) "NEARBY")) :=
  ⟨⟨by decide, by decide⟩, by decide,
   (C1_snapshot_sharing _ ⟨by decide, by decide⟩).1 9 1 2 3 4,
   (C1_snapshot_sharing _ ⟨by decide, by decide⟩).2.1 9 "FF:FF:FF:FF:FF:FF" (-70) "NEARBY"
     (by decide)⟩

end SoftAP
